import Mathlib

/-!
Verification of the decoder-ring library (src/lib/index.ts), a composable
JSON decoding combinator algebra.  The source is TypeScript; we embed it
shallowly:

* the dynamic value domain is the inductive `JSON` below.  It has an
  explicit `undef` variant because the TypeScript runtime distinguishes
  `undefined` from `null`: an absent object key reads as `undefined`
  (`json[key]`), and `Maybe`/`Default` test `json === null || json === void 0`.
  It also has variants for the two kinds of values that property access on
  a plain parsed object can surface from the prototype chain: the function
  members inherited from the base object prototype (such as toString or
  hasOwnProperty, and the constructor function), and the base object
  prototype itself, reached through the inherited proto accessor.  Member
  access and the membership operator are modelled chain-aware by `jsGet`
  and `jsHas`.
* exceptions become the `Except JSError` monad.  `JSError.decodeError`
  embeds the `DecodeError` class (it records the `expected` string and the
  `actual` value passed to the constructor); `JSError.other` stands for any
  other JavaScript exception, since a `catch (e)` clause in the source
  catches every thrown value, not only `DecodeError`.
* a JavaScript callback supplied by the caller may itself throw, so the
  `mapper` argument of `Map` lives in the exception monad; a pure mapper
  `f` is embedded as `fun x => Except.ok (f x)`.
* JavaScript numbers are embedded as integers: no decoder in the library
  computes with a number, it is only carried through and serialized.
-/

/-- Abbreviation for the Lean string type, so that the decoder named
`String` below (keeping the source name) never shadows a type reference. -/
abbrev Str := String

namespace DecoderRing

/-- The dynamic value domain of the decoders: the JSON value variants of
the source (`null | string | number | boolean | JSONObject | JSONArray`)
plus the runtime values that reach decoders beyond the parsed data model:
`undef` is `undefined` (read from an absent object key), `func` is a host
function value (a method inherited from the base object prototype, or the
constructor function), and `protoObj` is the base object prototype itself
(the value of the inherited proto accessor on a plain object).  Objects
keep their key insertion order, as JavaScript objects do, and their field
lists hold only own, enumerable properties, which is what parsing
produces. -/
inductive JSON where
  | undef
  | null
  | bool (b : Bool)
  | num (n : Int)
  | str (s : Str)
  | arr (elems : List JSON)
  | obj (fields : List (Str × JSON))
  | func (name : Str)
  | protoObj

/-- The exception channel: either the `DecodeError` of the library
(expected description and offending actual value), or any other
JavaScript exception value, summarized by a string. -/
inductive JSError where
  | decodeError (expected : Str) (actual : JSON)
  | other (e : Str)

/-- A decoder: the single-operation interface of the source,
`decode(json): T`, with the exception effect made explicit. -/
structure Decoder (α : Type) where
  decode : JSON → Except JSError α

/-- The property names of the base object prototype that every plain
parsed object inherits: its methods, its constructor, and the proto
accessor. -/
def protoMembers : List Str :=
  ["constructor", "hasOwnProperty", "isPrototypeOf", "propertyIsEnumerable",
   "toLocaleString", "toString", "valueOf", "__defineGetter__",
   "__defineSetter__", "__lookupGetter__", "__lookupSetter__", "__proto__"]

/-- Whether a key names a member of the base object prototype. -/
def protoHas (key : Str) : Bool :=
  protoMembers.contains key

/-- The value a plain object yields for a key found only on its prototype
chain: the proto accessor returns the base object prototype, the
constructor key returns the constructor function, the other members are
the inherited methods, and any other key reads as `undefined`. -/
def protoGet (key : Str) : JSON :=
  if key = "__proto__" then .protoObj
  else if key = "constructor" then .func "Object"
  else if protoHas key then .func key
  else (.undef : JSON)

/-- Member access on the base object prototype itself: the same own
properties, except that its proto accessor yields `null` there (the
prototype of the base object prototype). -/
def protoObjGet (key : Str) : JSON :=
  if key = "__proto__" then .null
  else if key = "constructor" then .func "Object"
  else if protoHas key then .func key
  else (.undef : JSON)

/-- Own-property lookup on a field list: the first field with the given
key, if any. -/
def ownGet (fields : List (Str × JSON)) (key : Str) : Option JSON :=
  match fields with
  | [] => none
  | (k, v) :: rest => if k = key then some v else ownGet rest key

/-- Member access `json[key]` on a plain object given by its own field
list: the own property when present, else the prototype chain. -/
def fieldGet (fields : List (Str × JSON)) (key : Str) : JSON :=
  match ownGet fields key with
  | some v => v
  | none => protoGet key

/-- JavaScript member access `current[key]` on the object-like values
(the only values the source reads properties from, always behind an
`isObject` test): a plain object goes through its own fields and then the
prototype chain, and the base object prototype through its own
properties. -/
def jsGet : JSON → Str → JSON
  | .obj fields, key => fieldGet fields key
  | .protoObj, key => protoObjGet key
  | _, _ => (.undef : JSON)

/-- The JavaScript membership operator `key in current` on the
object-like values: own keys or inherited prototype members for a plain
object, and the own properties of the base object prototype. -/
def jsHas : JSON → Str → Bool
  | .obj fields, key => (ownGet fields key).isSome || protoHas key
  | .protoObj, key => protoHas key
  | _, _ => false

/-- The runtime `typeof` operator on the value domain (note that in
JavaScript `typeof null` is "object", arrays are also "object", and the
inherited methods are "function"). -/
def typeof : JSON → Str
  | .undef => "undefined"
  | .null => "object"
  | .bool _ => "boolean"
  | .num _ => "number"
  | .str _ => "string"
  | .arr _ => "object"
  | .obj _ => "object"
  | .func _ => "function"
  | .protoObj => "object"

/-- The `isObject` helper of the source:
`param !== null && typeof param === "object" && !isArray(param)`,
which holds exactly for plain objects and the base object prototype. -/
def isObject : JSON → Bool
  | .obj _ => true
  | .protoObj => true
  | _ => false

/-- The `Array.isArray` test re-exported by `unshadow.ts` as `isArray`. -/
def isArray : JSON → Bool
  | .arr _ => true
  | _ => false

/-- The `Boolean` primitive decoder of the source: if
`typeof json === "boolean"` return `json`, else throw
`DecodeError("boolean", json)`.  The `typeof` test holds exactly on the
`bool` variant, from which the boolean payload is returned. -/
def Boolean : Decoder Bool :=
  ⟨fun json =>
    match json with
    | .bool b => .ok b
    | _ => .error (.decodeError "boolean" json)⟩

/-- The `Number` primitive decoder of the source: if
`typeof json === "number"` return `json`, else throw
`DecodeError("number", json)`. -/
def Number : Decoder Int :=
  ⟨fun json =>
    match json with
    | .num n => .ok n
    | _ => .error (.decodeError "number" json)⟩

/-- The `String` primitive decoder of the source: if
`typeof json === "string"` return `json`, else throw
`DecodeError("string", json)`. -/
def String : Decoder Str :=
  ⟨fun json =>
    match json with
    | .str s => .ok s
    | _ => .error (.decodeError "string" json)⟩

/-- Left-to-right monadic map over the element list: the embedding of
`json.map(elementDecoder.decode, elementDecoder)` in the source, where the
callback may throw.  JavaScript `Array.prototype.map` visits the elements
in order and a thrown exception aborts the whole call, which is exactly
sequencing in the exception monad. -/
def mapDecode (f : JSON → Except JSError α) : List JSON → Except JSError (List α)
  | [] => .ok []
  | x :: xs =>
    match f x with
    | .error e => .error e
    | .ok y =>
      match mapDecode f xs with
      | .error e => .error e
      | .ok ys => .ok (y :: ys)

/-- The `Array` combinator of the source: if `isArray(json)` map the
element decoder over the elements, else throw `DecodeError("array", json)`. -/
def Array (elementDecoder : Decoder α) : Decoder (List α) :=
  ⟨fun json =>
    match json with
    | .arr elems => mapDecode elementDecoder.decode elems
    | _ => .error (.decodeError "array" json)⟩

/-- The reduce loop of the `Object` combinator:
`objectKeys(decoderMap).reduce((result, key) => ... , {})`.  The decoder
map is embedded as an association list in the declaration order that
`Object.keys` (re-exported by `unshadow.ts` as `objectKeys`) would return;
field results are appended in that order, which is how the source fills
the fresh `result` object (decoder map keys are unique, so assignment and
append agree).  Each field decoder receives `json[key]`, i.e. `jsGet`,
which falls back to the prototype chain for an absent key: `undef` for an
ordinary key, an inherited member for the prototype member names. -/
def objectReduce (dm : List (Str × Decoder α)) (json : JSON)
    (result : List (Str × α)) : Except JSError (List (Str × α)) :=
  match dm with
  | [] => .ok result
  | (key, d) :: rest =>
    match d.decode (jsGet json key) with
    | .error e => .error e
    | .ok v => objectReduce rest json (result ++ [(key, v)])

/-- The `Object` combinator of the source: if `isObject(json)` reduce over
the declared keys of the decoder map, else throw
`DecodeError("object", json)`.  The heterogeneous TypeScript record of
decoders is embedded at a common result type. -/
def Object (decoderMap : List (Str × Decoder α)) : Decoder (List (Str × α)) :=
  ⟨fun json =>
    if isObject json then objectReduce decoderMap json []
    else .error (.decodeError "object" json)⟩

/-- The `Map` combinator of the source: `mapper(decoder.decode(json))`.
The mapper lives in the exception monad because any JavaScript function
may throw; a pure mapper `f` is embedded as `fun x => Except.ok (f x)`. -/
def Map (mapper : β → Except JSError α) (decoder : Decoder β) : Decoder α :=
  ⟨fun json =>
    match decoder.decode json with
    | .error e => .error e
    | .ok raw => mapper raw⟩

/-- The `Object.keys` builtin re-exported by `unshadow.ts` as
`objectKeys`: the own enumerable property names in insertion order.  A
plain object owns its field names; the base object prototype owns no
enumerable property. -/
def objectKeys : JSON → List Str
  | .obj fields => fields.map (fun p => p.1)
  | _ => []

/-- The reduce loop of the `Dictionary` combinator:
`objectKeys(json).reduce((dict, key) => ... , {})`, decoding `json[key]`
for every key present in the input itself. -/
def dictReduce (d : Decoder α) (json : JSON) :
    List Str → List (Str × α) → Except JSError (List (Str × α))
  | [], dict => .ok dict
  | key :: rest, dict =>
    match d.decode (jsGet json key) with
    | .error e => .error e
    | .ok v => dictReduce d json rest (dict ++ [(key, v)])

/-- The `Dictionary` combinator of the source: if `isObject(json)` decode
every own enumerable key of the input, else throw
`DecodeError("object", json)`. -/
def Dictionary (decoder : Decoder α) : Decoder (List (Str × α)) :=
  ⟨fun json =>
    if isObject json then dictReduce decoder json (objectKeys json) []
    else .error (.decodeError "object" json)⟩

/-- The `Maybe` combinator of the source: if
`json === null || json === void 0` return `null` (the no-value marker,
embedded as `Option.none`), else delegate to the inner decoder (a value
produced by the inner decoder is embedded as `Option.some`, the embedding
of the union type `null | T`). -/
def Maybe (decoder : Decoder α) : Decoder (Option α) :=
  ⟨fun json =>
    match json with
    | .null => .ok none
    | .undef => .ok none
    | j =>
      match decoder.decode j with
      | .error e => .error e
      | .ok v => .ok (some v)⟩

/-- The `Default` combinator of the source: a `switch` on `json` returning
`defaultValue` in the `null` and `void 0` cases, else delegating to the
inner decoder. -/
def Default (decoder : Decoder α) (defaultValue : α) : Decoder α :=
  ⟨fun json =>
    match json with
    | .null => .ok defaultValue
    | .undef => .ok defaultValue
    | _ => decoder.decode json⟩

/-- The `path.join(".")` of the source: elements joined by a dot. -/
def joinPath : List Str → Str
  | [] => ""
  | [x] => x
  | x :: y :: rest => x ++ "." ++ joinPath (y :: rest)

/-- The reduce loop of the `At` combinator:
`path.reduce((current, key) => ..., json)`.  The whole path and the
original outer value are captured by the closure, so every thrown error
mentions the full joined path and carries the original `json`. -/
def atReduce (path : List Str) (json : JSON) : JSON → List Str → Except JSError JSON
  | current, [] => .ok current
  | current, key :: rest =>
    if isObject current && jsHas current key then
      atReduce path json (jsGet current key) rest
    else .error (.decodeError ("value at " ++ joinPath path) json)

/-- The `At` combinator of the source: walk the path from the input, then
run the inner decoder on the traversal result. -/
def At (path : List Str) (decoder : Decoder α) : Decoder α :=
  ⟨fun json =>
    match atReduce path json json path with
    | .error e => .error e
    | .ok traverseResult => decoder.decode traverseResult⟩

/-- The `OneOf2` combinator of the source: try `d1.decode(json)` and on
any thrown exception fall back to `d2.decode(json)`.  The union result
type `T1 | T2` is embedded as a sum. -/
def OneOf2 (d1 : Decoder α) (d2 : Decoder β) : Decoder (α ⊕ β) :=
  ⟨fun json =>
    match d1.decode json with
    | .ok v => .ok (.inl v)
    | .error _ =>
      match d2.decode json with
      | .ok v => .ok (.inr v)
      | .error e => .error e⟩

/-- The `OneOf3` combinator of the source: try `d1.decode(json)` and on
any thrown exception fall back to `OneOf2(d2, d3).decode(json)`. -/
def OneOf3 (d1 : Decoder α) (d2 : Decoder β) (d3 : Decoder γ) :
    Decoder (α ⊕ β ⊕ γ) :=
  ⟨fun json =>
    match d1.decode json with
    | .ok v => .ok (.inl v)
    | .error _ =>
      match (OneOf2 d2 d3).decode json with
      | .ok v => .ok (.inr v)
      | .error e => .error e⟩

/-- Hexadecimal digit character (lowercase), for control-character
escapes in the JSON string serialization. -/
def hexDigitChar (n : Nat) : Char :=
  if n < 10 then Char.ofNat (48 + n) else Char.ofNat (97 + (n - 10))

/-- Two lowercase hexadecimal digits of a code point below 256. -/
def hexByte (n : Nat) : Str :=
  (("" : Str).push (hexDigitChar (n / 16))).push (hexDigitChar (n % 16))

/-- Escaping of one character inside a JSON string literal, following the
QuoteJSONString operation used by the host `JSON.stringify`: quote and
backslash are escaped, the named control escapes are used where they
exist, the remaining control characters get a unicode escape, and every
other character stands for itself. -/
def escapeChar (c : Char) : Str :=
  if c = '\"' then "\\\""
  else if c = '\\' then "\\\\"
  else if c = '\x08' then "\\b"
  else if c = '\x0c' then "\\f"
  else if c = '\n' then "\\n"
  else if c = '\r' then "\\r"
  else if c = '\t' then "\\t"
  else if c.toNat < 32 then "\\u00" ++ hexByte c.toNat
  else ("" : Str).push c

/-- A JSON string literal for the given string: the characters escaped and
wrapped in quotes, as the host `JSON.stringify` renders strings. -/
def quoteJSONString (s : Str) : Str :=
  "\"" ++ (s.data.map escapeChar).foldl (fun a b => a ++ b) "" ++ "\""

/-- List of strings joined by a separator. -/
def joinSep (sep : Str) : List Str → Str
  | [] => ""
  | [x] => x
  | x :: y :: rest => x ++ sep ++ joinSep sep (y :: rest)

mutual

/-- The host `JSON.stringify` on the embedded value domain, used by the
`DecodeError` constructor.  It returns no string on `undefined` (the host
function returns the value `undefined` there); inside an array an
`undefined` element renders as null, and inside an object a field whose
value is `undefined` is omitted, as the host function does. -/
def stringifyJSON : JSON → Option Str
  | .undef => none
  | .null => some "null"
  | .bool true => some "true"
  | .bool false => some "false"
  | .num n => some (toString n)
  | .str s => some (quoteJSONString s)
  | .arr elems => some ("[" ++ joinSep "," (stringifyElems elems) ++ "]")
  | .obj fields => some ("\x7b" ++ joinSep "," (stringifyFields fields) ++ "\x7d")
  | .func _ => none
  | .protoObj => some "\x7b\x7d"

/-- Rendered elements of an array under `JSON.stringify`. -/
def stringifyElems : List JSON → List Str
  | [] => []
  | x :: xs =>
    (match stringifyJSON x with
     | some s => s
     | none => "null") :: stringifyElems xs

/-- Rendered fields of an object under `JSON.stringify`. -/
def stringifyFields : List (Str × JSON) → List Str
  | [] => []
  | (k, v) :: rest =>
    match stringifyJSON v with
    | some s => (quoteJSONString k ++ ":" ++ s) :: stringifyFields rest
    | none => stringifyFields rest

end

/-- The serialization of the actual value as it appears inside the
message template literal: the result of `JSON.stringify`, which the
template renders as the text undefined when the stringify result is the
value `undefined`. -/
def stringifyInterp (v : JSON) : Str :=
  match stringifyJSON v with
  | some s => s
  | none => "undefined"

/-- The message built by the `DecodeError` constructor of the source: the
template literal interpolating the expected description and
`JSON.stringify(actual)`.  An `other` exception carries its own text. -/
def errMessage : JSError → Str
  | .decodeError expected actual =>
    "Decode error: expected " ++ expected ++ ", got " ++ stringifyInterp actual
  | .other e => e

/-- Modelled from the spec wording of the output contract: the message
format is the text Decode error: expected, then the expected description,
then a comma, got, and the serialized actual value. -/
def specMessageFormat (expected actualSerialized : Str) : Str :=
  "Decode error: expected " ++ expected ++ ", got " ++ actualSerialized

/-- Path traversal on the value domain, the vocabulary in which the `At`
claims are stated: follow the keys left to right, stepping only through
object-like values that pass the membership test of the runtime (own keys
or inherited prototype members), and return the terminal node when the
whole path resolves. -/
def walk : JSON → List Str → Option JSON
  | current, [] => some current
  | current, key :: rest =>
    if isObject current && jsHas current key then walk (jsGet current key) rest
    else none

/-- Projection of a literal decoder: evaluation of the wrapped function. -/
@[simp]
theorem decode_mk (f : JSON → Except JSError α) (v : JSON) :
    (Decoder.mk f).decode v = f v := rfl

/-- Member access on a plain object is lookup through its field list. -/
theorem jsGet_obj (fields : List (Str × JSON)) (key : Str) :
    jsGet (.obj fields) key = fieldGet fields key := rfl

/-- For a key whose prototype-chain fallback is `undefined` (any key that
is not an inherited prototype member), appending a field holding
`undefined` never changes property lookup: the absent key already reads
as `undefined`, and when the key is present the earlier field wins. -/
theorem fieldGet_append_undef (fields : List (Str × JSON)) (k : Str)
    (hk : protoGet k = .undef) (key : Str) :
    fieldGet (fields ++ [(k, .undef)]) key = fieldGet fields key := by
  induction fields with
  | nil =>
    by_cases h : k = key
    · subst h; simp [fieldGet, ownGet, hk]
    · simp [fieldGet, ownGet, h]
  | cons p rest ih =>
    obtain ⟨k0, v0⟩ := p
    by_cases h : k0 = key
    · simp [fieldGet, ownGet, h]
    · simpa [fieldGet, ownGet, h] using ih

/-- The object reduce loop only inspects the input through property
lookups on the declared keys, so inputs with identical lookups decode
identically. -/
theorem objectReduce_congr (dm : List (Str × Decoder α)) (j1 j2 : JSON)
    (hf : ∀ key, jsGet j1 key = jsGet j2 key) :
    ∀ acc, objectReduce dm j1 acc = objectReduce dm j2 acc := by
  induction dm with
  | nil => intro acc; rfl
  | cons kd rest ih =>
    intro acc
    obtain ⟨key, d⟩ := kd
    simp only [objectReduce, hf key]
    cases d.decode (jsGet j2 key) <;> simp [ih]

/-- The traversal loop of `At` agrees with `walk`: it yields the terminal
node when the remaining path resolves from the current node, and throws
the path error built from the whole path and original input otherwise. -/
theorem atReduce_walk (path : List Str) (json : JSON) :
    ∀ (rest : List Str) (cur : JSON),
      atReduce path json cur rest =
        match walk cur rest with
        | some t => .ok t
        | none => .error (.decodeError ("value at " ++ joinPath path) json) := by
  intro rest
  induction rest with
  | nil => intro cur; rfl
  | cons key more ih =>
    intro cur
    by_cases h : (isObject cur && jsHas cur key) = true
    · simp [atReduce, walk, h, ih]
    · simp [atReduce, walk, h]

/-- A successful monadic map has the length of its input and decodes the
input elementwise in order. -/
theorem mapDecode_ok_shape (f : JSON → Except JSError α) :
    ∀ (l : List JSON) (res : List α), mapDecode f l = .ok res →
      res.length = l.length ∧
      ∀ (i : Nat) (h1 : i < l.length) (h2 : i < res.length),
        f (l.get ⟨i, h1⟩) = .ok (res.get ⟨i, h2⟩) := by
  intro l
  induction l with
  | nil =>
    intro res h
    simp only [mapDecode, Except.ok.injEq] at h
    subst h
    exact ⟨rfl, fun i h1 _ => absurd h1 (Nat.not_lt_zero i)⟩
  | cons x xs ih =>
    intro res h
    simp only [mapDecode] at h
    cases hx : f x with
    | error e => simp [hx] at h
    | ok y =>
      rw [hx] at h
      cases hxs : mapDecode f xs with
      | error e => simp [hxs] at h
      | ok ys =>
        rw [hxs] at h
        simp only [Except.ok.injEq] at h
        subst h
        obtain ⟨hlen, hget⟩ := ih ys hxs
        refine ⟨by simp [hlen], ?_⟩
        intro i h1 h2
        cases i with
        | zero => simpa using hx
        | succ j =>
          simpa using hget j (by simpa using h1) (by simpa using h2)

/-- A monadic map over elements that all decode succeeds. -/
theorem mapDecode_all_ok (f : JSON → Except JSError α) :
    ∀ l : List JSON, (∀ x ∈ l, ∃ y, f x = .ok y) →
      ∃ res, mapDecode f l = .ok res := by
  intro l
  induction l with
  | nil => exact fun _ => ⟨[], rfl⟩
  | cons x xs ih =>
    intro h
    obtain ⟨y, hy⟩ := h x (List.mem_cons_self x xs)
    obtain ⟨ys, hys⟩ := ih fun z hz => h z (List.mem_cons_of_mem x hz)
    exact ⟨y :: ys, by simp [mapDecode, hy, hys]⟩

/-- A failed monadic map fails with the error of one of its elements. -/
theorem mapDecode_error_mem (f : JSON → Except JSError α) :
    ∀ (l : List JSON) (e : JSError), mapDecode f l = .error e →
      ∃ x ∈ l, f x = .error e := by
  intro l
  induction l with
  | nil => intro e h; simp [mapDecode] at h
  | cons x xs ih =>
    intro e h
    simp only [mapDecode] at h
    cases hx : f x with
    | error e0 =>
      rw [hx] at h
      simp only [Except.error.injEq] at h
      subst h
      exact ⟨x, List.mem_cons_self x xs, hx⟩
    | ok y =>
      rw [hx] at h
      cases hxs : mapDecode f xs with
      | error e0 =>
        rw [hxs] at h
        simp only [Except.error.injEq] at h
        subst h
        obtain ⟨z, hz, hze⟩ := ih e0 hxs
        exact ⟨z, List.mem_cons_of_mem x hz, hze⟩
      | ok ys => simp [hxs] at h

/-- The monadic map fails with the error of the leftmost failing element:
a failure preceded by successes is the overall result. -/
theorem mapDecode_first_error (f : JSON → Except JSError α) :
    ∀ (pre : List JSON) (x : JSON) (post : List JSON) (e : JSError),
      (∀ y ∈ pre, ∃ r, f y = .ok r) → f x = .error e →
      mapDecode f (pre ++ x :: post) = .error e := by
  intro pre
  induction pre with
  | nil => intro x post e _ hx; simp [mapDecode, hx]
  | cons p ps ih =>
    intro x post e hpre hx
    obtain ⟨r, hr⟩ := hpre p (List.mem_cons_self p ps)
    have hrest := ih x post e (fun y hy => hpre y (List.mem_cons_of_mem p hy)) hx
    simp [mapDecode, hr, hrest]

/-- C1, counterexample: on the decoder map with the single field b
decoded by `String` and the input object without that key, the `Object`
decoder fails with a `DecodeError` whose actual value is `undefined`, not
`null` as the claim states: property access on the absent key yields
`undefined` and that value is what the failing field decoder records. -/
theorem object_missing_key_null_cex :
    (Object [("b", DecoderRing.String)]).decode (.obj []) =
      .error (.decodeError "string" .undef) ∧
    (Object [("b", DecoderRing.String)]).decode (.obj []) ≠
      .error (.decodeError "string" .null) := by
  refine ⟨rfl, fun h => ?_⟩
  rw [show (Object [("b", DecoderRing.String)]).decode (.obj []) =
      .error (.decodeError "string" .undef) from rfl] at h
  simp at h

/-- C1, amended: for every decoder map and input object, a missing
declared key whose name is not an inherited prototype member is treated
identically to a key present with value `undefined` (appending such a
field never changes the decode result), the field decoder being invoked
on the `undefined` read of the absent property; when that field decoder
is the `String` primitive it fails with a `DecodeError` carrying actual
equal to `undefined` (not `null`).  A missing declared key that does name
an inherited prototype member instead reads the inherited value: a
toString field decoded by `Maybe(Number)` on the empty object receives
the inherited function, so the inner decoder fails on it rather than
returning the no-value marker. -/
theorem object_missing_key_as_undefined (dm : List (Str × Decoder α))
    (fields : List (Str × JSON)) (k : Str) (hk : protoGet k = .undef) :
    (Object dm).decode (.obj (fields ++ [(k, .undef)])) =
      (Object dm).decode (.obj fields) ∧
    DecoderRing.String.decode .undef = .error (.decodeError "string" .undef) ∧
    (Object [("toString", Maybe Number)]).decode (.obj []) =
      .error (.decodeError "number" (.func "toString")) := by
  refine ⟨?_, rfl, rfl⟩
  show objectReduce dm (.obj (fields ++ [(k, .undef)])) [] =
    objectReduce dm (.obj fields) []
  exact objectReduce_congr dm (.obj (fields ++ [(k, .undef)])) (.obj fields)
    (fun key => (jsGet_obj (fields ++ [(k, .undef)]) key).trans
      ((fieldGet_append_undef fields k hk key).trans (jsGet_obj fields key).symm)) []

/-- C1, witness: for the ordinary key b, decoding the empty object equals
decoding the object that carries b with value `undefined`, and the
`String` primitive on `undefined` records `undefined` as the actual
value. -/
theorem object_missing_key_as_undefined_witness :
    (Object [("b", DecoderRing.String)]).decode (.obj [("b", .undef)]) =
      (Object [("b", DecoderRing.String)]).decode (.obj []) ∧
    DecoderRing.String.decode .undef = .error (.decodeError "string" .undef) :=
  ⟨(object_missing_key_as_undefined [("b", DecoderRing.String)] [] "b" rfl).1,
   (object_missing_key_as_undefined [("b", DecoderRing.String)] [] "b" rfl).2.1⟩

/-- C2, counterexample: the claim predicts that `At` with path toString
on the empty object fails with the value-at-path error carrying the
original input, the object lacking that key; but the runtime membership
test is true for the inherited toString member, so the program traverses
into the inherited function and the inner `Number` decoder fails on it
instead. -/
theorem at_inherited_key_cex :
    (At ["toString"] Number).decode (.obj []) =
      .error (.decodeError "number" (.func "toString")) ∧
    (At ["toString"] Number).decode (.obj []) ≠
      .error (.decodeError "value at toString" (.obj [])) := by
  refine ⟨rfl, fun h => ?_⟩
  rw [show (At ["toString"] Number).decode (.obj []) =
      .error (.decodeError "number" (.func "toString")) from rfl] at h
  simp at h

/-- C2, amended: for every path, inner decoder and input, if walking the
path from the input fails at any step (a node failing the isObject test,
or one on which the runtime membership test for the next key is false,
the test being true also for inherited prototype members such as toString
or the proto accessor) then `At` fails with the error naming the whole
dot-joined path and carrying the original outer value; and if the path
resolves to a terminal node, possibly through inherited members, then the
result is exactly the inner decode of that node. -/
theorem at_path_traversal_spec (p : List Str) (d : Decoder α) (v : JSON) :
    (walk v p = none →
      (At p d).decode v = .error (.decodeError ("value at " ++ joinPath p) v)) ∧
    (∀ t, walk v p = some t → (At p d).decode v = d.decode t) := by
  constructor
  · intro h
    simp only [At, decode_mk, atReduce_walk p v p v, h]
  · intro t h
    simp only [At, decode_mk, atReduce_walk p v p v, h]

/-- C2, witness: at the concrete path a.b, a nested object resolves and
the terminal value is decoded; an object whose inner object lacks b fails
with the path error carrying the full original input; and the path
constructor on the empty object resolves through the inherited member to
the constructor function, on which the inner decoder fails. -/
theorem at_path_traversal_spec_witness :
    (At ["a", "b"] Number).decode (.obj [("a", .obj [("b", .num 5)])]) = .ok 5 ∧
    (At ["a", "b"] Number).decode (.obj [("a", .obj [])]) =
      .error (.decodeError "value at a.b" (.obj [("a", .obj [])])) ∧
    (At ["constructor"] Boolean).decode (.obj []) =
      .error (.decodeError "boolean" (.func "Object")) :=
  ⟨((at_path_traversal_spec ["a", "b"] Number
      (.obj [("a", .obj [("b", .num 5)])])).2 (.num 5) rfl).trans rfl,
   ((at_path_traversal_spec ["a", "b"] Number (.obj [("a", .obj [])])).1 rfl).trans rfl,
   ((at_path_traversal_spec ["constructor"] Boolean (.obj [])).2
      (.func "Object") rfl).trans rfl⟩

/-- C3: the alternation combinators try their decoders strictly in order:
a first success is returned and no later alternative matters; when every
alternative fails the surfaced error is exactly the error of the last
decoder tried; and `OneOf3` tries its first decoder and on failure
delegates to `OneOf2` of the remaining two. -/
theorem oneOf_order_and_last_error (d1 : Decoder α) (d2 : Decoder β)
    (d3 : Decoder γ) (v : JSON) :
    (∀ x, d1.decode v = .ok x → (OneOf2 d1 d2).decode v = .ok (.inl x)) ∧
    (∀ e x, d1.decode v = .error e → d2.decode v = .ok x →
      (OneOf2 d1 d2).decode v = .ok (.inr x)) ∧
    (∀ e1 e2, d1.decode v = .error e1 → d2.decode v = .error e2 →
      (OneOf2 d1 d2).decode v = .error e2) ∧
    (∀ x, d1.decode v = .ok x → (OneOf3 d1 d2 d3).decode v = .ok (.inl x)) ∧
    (∀ e, d1.decode v = .error e →
      (OneOf3 d1 d2 d3).decode v = ((OneOf2 d2 d3).decode v).map Sum.inr) := by
  refine ⟨fun x h => ?_, fun e x h1 h2 => ?_, fun e1 e2 h1 h2 => ?_,
    fun x h => ?_, fun e h => ?_⟩
  · simp [OneOf2, h]
  · simp [OneOf2, h1, h2]
  · simp [OneOf2, h1, h2]
  · simp [OneOf3, h]
  · simp only [OneOf3, decode_mk, h]
    cases hx : (OneOf2 d2 d3).decode v <;> simp [hx, Except.map]

/-- C3, witness: on a boolean input both `Number` and `String` fail and
the surfaced error is the `String` failure only, and on a numeric input
the first decoder succeeds and its value is returned. -/
theorem oneOf_order_and_last_error_witness :
    (OneOf2 Number DecoderRing.String).decode (.bool true) =
      .error (.decodeError "string" (.bool true)) ∧
    (OneOf2 Number DecoderRing.String).decode (.num 5) = .ok (.inl 5) :=
  ⟨(oneOf_order_and_last_error Number DecoderRing.String Boolean (.bool true)).2.2.1
      (.decodeError "number" (.bool true)) (.decodeError "string" (.bool true)) rfl rfl,
   (oneOf_order_and_last_error Number DecoderRing.String Boolean (.num 5)).1 5 rfl⟩

/-- C4: each primitive decoder returns the payload of the input unchanged
when the runtime variant matches its `typeof` test, and on every other
variant fails with its name as the expected description and the input as
the actual value. -/
theorem primitive_decoders_spec (v : JSON) :
    (∀ b, v = .bool b → Boolean.decode v = .ok b) ∧
    (typeof v ≠ "boolean" → Boolean.decode v = .error (.decodeError "boolean" v)) ∧
    (∀ n, v = .num n → Number.decode v = .ok n) ∧
    (typeof v ≠ "number" → Number.decode v = .error (.decodeError "number" v)) ∧
    (∀ s, v = .str s → DecoderRing.String.decode v = .ok s) ∧
    (typeof v ≠ "string" →
      DecoderRing.String.decode v = .error (.decodeError "string" v)) := by
  refine ⟨fun b h => by subst h; rfl, fun h => ?_, fun n h => by subst h; rfl,
    fun h => ?_, fun s h => by subst h; rfl, fun h => ?_⟩
  · cases v <;> first | rfl | exact absurd rfl h
  · cases v <;> first | rfl | exact absurd rfl h
  · cases v <;> first | rfl | exact absurd rfl h

/-- C4, witness: the boolean primitive accepts a boolean unchanged, and
the number primitive rejects a string recording it as the actual value. -/
theorem primitive_decoders_spec_witness :
    Boolean.decode (.bool true) = .ok true ∧
    Number.decode (.str "x") = .error (.decodeError "number" (.str "x")) :=
  ⟨(primitive_decoders_spec (.bool true)).1 true rfl,
   (primitive_decoders_spec (.str "x")).2.2.2.1 (by decide)⟩

/-- C5: the array combinator rejects every non-sequence input with the
array expectation; on a sequence a success has the length of the input
and decodes it elementwise in order, all elements succeeding makes the
whole succeed, a failure is the error of some element, and the error of
the leftmost failing element (all earlier ones succeeding) is the overall
result. -/
theorem array_decoder_spec (d : Decoder α) (v : JSON) :
    (isArray v = false → (Array d).decode v = .error (.decodeError "array" v)) ∧
    (∀ elems res, v = .arr elems → (Array d).decode v = .ok res →
      res.length = elems.length ∧
      ∀ (i : Nat) (h1 : i < elems.length) (h2 : i < res.length),
        d.decode (elems.get ⟨i, h1⟩) = .ok (res.get ⟨i, h2⟩)) ∧
    (∀ elems, v = .arr elems → (∀ x ∈ elems, ∃ y, d.decode x = .ok y) →
      ∃ res, (Array d).decode v = .ok res) ∧
    (∀ elems e, v = .arr elems → (Array d).decode v = .error e →
      ∃ x ∈ elems, d.decode x = .error e) ∧
    (∀ pre x post e, v = .arr (pre ++ x :: post) →
      (∀ y ∈ pre, ∃ r, d.decode y = .ok r) → d.decode x = .error e →
      (Array d).decode v = .error e) := by
  refine ⟨fun h => ?_, fun elems res hv h => ?_, fun elems hv h => ?_,
    fun elems e hv h => ?_, fun pre x post e hv hpre hx => ?_⟩
  · cases v <;> first | rfl | simp [isArray] at h
  · subst hv; exact mapDecode_ok_shape d.decode elems res h
  · subst hv; exact mapDecode_all_ok d.decode elems h
  · subst hv; exact mapDecode_error_mem d.decode elems e h
  · subst hv; exact mapDecode_first_error d.decode pre x post e hpre hx

/-- C5, witness: a non-sequence input is rejected with the array
expectation, and a sequence whose second element is not a number fails
with the number error on that element. -/
theorem array_decoder_spec_witness :
    (Array Number).decode (.bool true) = .error (.decodeError "array" (.bool true)) ∧
    (Array Number).decode (.arr [.num 1, .str "x"]) =
      .error (.decodeError "number" (.str "x")) :=
  ⟨(array_decoder_spec Number (.bool true)).1 rfl,
   (array_decoder_spec Number (.arr [.num 1, .str "x"])).2.2.2.2
      [.num 1] (.str "x") [] (.decodeError "number" (.str "x")) rfl
      (by intro y hy; simp at hy; subst hy; exact ⟨1, rfl⟩) rfl⟩

/-- C6: the `Maybe` combinator returns the no-value marker on `null` and
on `undefined` without consulting the inner decoder (the equations hold
for every inner decoder), and on every other input returns exactly the
inner decode result, success or failure alike. -/
theorem maybe_decoder_spec (d : Decoder α) (v : JSON) :
    (Maybe d).decode .null = .ok none ∧
    (Maybe d).decode .undef = .ok none ∧
    (v ≠ .null → v ≠ .undef → (Maybe d).decode v = (d.decode v).map some) := by
  refine ⟨rfl, rfl, fun h1 h2 => ?_⟩
  cases v with
  | null => exact absurd rfl h1
  | undef => exact absurd rfl h2
  | bool b => cases hx : d.decode (.bool b) <;> simp [Maybe, hx, Except.map]
  | num n => cases hx : d.decode (.num n) <;> simp [Maybe, hx, Except.map]
  | str s => cases hx : d.decode (.str s) <;> simp [Maybe, hx, Except.map]
  | arr es => cases hx : d.decode (.arr es) <;> simp [Maybe, hx, Except.map]
  | obj fs => cases hx : d.decode (.obj fs) <;> simp [Maybe, hx, Except.map]
  | func n => cases hx : d.decode (.func n) <;> simp [Maybe, hx, Except.map]
  | protoObj => cases hx : d.decode .protoObj <;> simp [Maybe, hx, Except.map]

/-- C6, witness: on a number the inner decode result surfaces, on `null`
the no-value marker is returned, and on a malformed non-null value the
inner failure surfaces unswallowed. -/
theorem maybe_decoder_spec_witness :
    (Maybe Number).decode (.num 5) = .ok (some 5) ∧
    (Maybe Number).decode .null = .ok none ∧
    (Maybe Number).decode (.str "x") = .error (.decodeError "number" (.str "x")) :=
  ⟨((maybe_decoder_spec Number (.num 5)).2.2
      (fun h => JSON.noConfusion h) (fun h => JSON.noConfusion h)).trans rfl,
   (maybe_decoder_spec Number .null).1,
   ((maybe_decoder_spec Number (.str "x")).2.2
      (fun h => JSON.noConfusion h) (fun h => JSON.noConfusion h)).trans rfl⟩

/-- C7: mapping through the identity (a pure mapper returning its
argument) is the identity on decoders: on every input the composite
returns exactly the inner result, and an inner failure passes through
unchanged. -/
theorem map_identity_spec (d : Decoder α) (v : JSON) :
    (Map (fun x => (.ok x : Except JSError α)) d).decode v = d.decode v := by
  cases hx : d.decode v <;> simp [Map, hx]

/-- C8: the message of every `DecodeError` is the template of the
specification, interpolating the expected description and the actual
value rendered by the host JSON serialization, matching the sample
renderings of the specification. -/
theorem decode_error_message_format (expected : Str) (actual : JSON) :
    errMessage (.decodeError expected actual) =
      specMessageFormat expected (stringifyInterp actual) ∧
    stringifyInterp (.bool true) = "true" ∧
    stringifyInterp (.str "got") = "\"got\"" ∧
    stringifyInterp (.obj [("a", .num 1)]) = "\x7b\"a\":1\x7d" ∧
    errMessage (.decodeError "boolean" (.str "true")) =
      "Decode error: expected boolean, got \"true\"" :=
  ⟨rfl, rfl, rfl, rfl, rfl⟩

/-- C9: the catch clause of `OneOf2` intercepts every exception of the
first decoder, whatever its kind, and falls back to the second decoder;
in particular a non-decode exception thrown by the mapper of a `Map`
wrapped as the first alternative is silently swallowed and the second
alternative is tried. -/
theorem oneOf2_catches_all_exceptions (d1 : Decoder α) (d2 : Decoder β)
    (v : JSON) (e : JSError) (h : d1.decode v = .error e) :
    (OneOf2 d1 d2).decode v = ((d2.decode v).map Sum.inr : Except JSError (α ⊕ β)) ∧
    (OneOf2 (Map (fun _ : Int => (.error (.other "mapper threw") : Except JSError Int))
        Number) Number).decode (.num 5) = .ok (.inr 5) := by
  constructor
  · simp only [OneOf2, decode_mk, h]
    cases hx : d2.decode v <;> simp [hx, Except.map]
  · rfl

/-- C9, witness: the first alternative is a number decoder whose mapper
throws a non-decode exception on the numeric input; the exception is
swallowed, the second alternative runs, and its outcome is the result. -/
theorem oneOf2_catches_all_exceptions_witness :
    (OneOf2 (Map (fun _ : Int => (.error (.other "mapper threw") : Except JSError Int))
        Number) DecoderRing.String).decode (.num 5) =
      .error (.decodeError "string" (.num 5)) ∧
    (OneOf2 (Map (fun _ : Int => (.error (.other "mapper threw") : Except JSError Int))
        Number) Number).decode (.num 5) = .ok (.inr 5) :=
  ⟨((oneOf2_catches_all_exceptions
      (Map (fun _ : Int => (.error (.other "mapper threw") : Except JSError Int)) Number)
      DecoderRing.String (.num 5) (.other "mapper threw") rfl).1).trans rfl,
   (oneOf2_catches_all_exceptions
      (Map (fun _ : Int => (.error (.other "mapper threw") : Except JSError Int)) Number)
      DecoderRing.String (.num 5) (.other "mapper threw") rfl).2⟩

/-- C10: with the empty path the `At` combinator performs no traversal
step and is exactly the inner decoder: the reduce over an empty path
returns the original input, which is passed to the inner decode. -/
theorem at_empty_path (d : Decoder α) (v : JSON) :
    (At [] d).decode v = d.decode v := rfl

end DecoderRing
